import Mathlib

/-!
# Verification of the tree-repository core (TreeRepository.ts)

A shallow embedding of `src/repository/TreeRepository.ts`: the query-fragment
builders for the three tree encodings, the closure-table move planner, and the
in-memory tree assemblers, together with an executable model of the external
query-execution and transaction collaborators (those collaborators are not part
of the source under verification; their semantics are modelled from the spec).

JavaScript runtime values that flow through the code (column values, bound
query parameters, relation-map entries) are modelled by the inductive `Value`;
entities are association lists from property names to values, matching the
plain-object hydration the mapper produces.
-/

namespace TreeRepository

/-- A JavaScript primitive value as it appears in column positions:
`undefined`, `null`, a number, or a string. -/
inductive Value where
  | vundef : Value
  | vnull : Value
  | vnum : Int → Value
  | vstr : String → Value
deriving DecidableEq, Repr

/-- JavaScript string coercion as performed by `+` on a string and a value
(used when the move planner salts parameter keys with the descendant's value:
`column.referencedColumn!.propertyName + eVal`). -/
def valueToStr : Value → String
  | Value.vundef => "undefined"
  | Value.vnull => "null"
  | Value.vnum n => toString n
  | Value.vstr s => s

/-- A hydrated entity (or a raw database row): a plain JavaScript object,
modelled as an association list from property names to values. -/
abbrev Entity : Type := List (String × Value)

/-- Property access `e[name]`: the first binding for `name`, or `undefined`
when the object has no such property. -/
def getProp (e : Entity) (name : String) : Value :=
  (e.lookup name).getD Value.vundef

/-- JavaScript object update `obj[k] = v`: overwrite the binding in place when
the key exists, append it otherwise (insertion order is observable in the
bound-parameter objects the builders produce). -/
def objInsert (o : List (String × Value)) (k : String) (v : Value) : List (String × Value) :=
  if o.any (fun p => p.1 = k) then
    o.map (fun p => if p.1 = k then (k, v) else p)
  else
    o ++ [(k, v)]

/-- Object spread `\x7b ...a, ...b \x7d`: start from `a` and insert every
binding of `b`. -/
def objSpread (a b : List (String × Value)) : List (String × Value) :=
  b.foldl (fun acc kv => objInsert acc kv.1 kv.2) a

/-- `pat` is an initial segment of the character list. -/
def isLeadOf : List Char → List Char → Bool
  | [], _ => true
  | _ :: _, [] => false
  | p :: ps, c :: cs => p = c && isLeadOf ps cs

def jsReplaceFirstAux (pat rep : List Char) : List Char → List Char
  | [] => []
  | c :: cs =>
    if isLeadOf pat (c :: cs) then rep ++ (c :: cs).drop pat.length
    else c :: jsReplaceFirstAux pat rep cs

/-- JavaScript `String.prototype.replace` with a string pattern: replaces only
the FIRST occurrence (used for `propertyPath.replace(".", "_")` in the
nested-set branches); an empty pattern matches at position zero. -/
def jsReplaceFirst (s pat rep : String) : String :=
  if pat.toList = [] then rep ++ s
  else String.mk (jsReplaceFirstAux pat.toList rep.toList s.toList)

/-- SQL `LIKE pat || '%'` against a candidate value: a prefix match. Modelled
from the spec: "prefix match via pattern-match-with-wildcard-suffix" (paths are
treated as wildcard-free literals). Non-string operands never match. -/
def likeStartsWith (subject pat : Value) : Bool :=
  match subject, pat with
  | Value.vstr s, Value.vstr p => isLeadOf p.toList s.toList
  | _, _ => false

/-- SQL `v BETWEEN lo AND hi` on numeric column values. -/
def sqlBetween (v lo hi : Value) : Bool :=
  match v, lo, hi with
  | Value.vnum x, Value.vnum a, Value.vnum b => a ≤ x && x ≤ b
  | _, _, _ => false

/-- A column referenced by a junction/join column (`referencedColumn`):
`propertyName` keys `getEntityValue`, `propertyPath` names the column in
rendered SQL. -/
structure RefColumn where
  propertyName : String
  propertyPath : String
deriving DecidableEq, Repr

/-- `ColumnMetadata.getEntityValue(entity)`: read the entity's value at the
column's property. -/
def RefColumn.getEntityValue (c : RefColumn) (e : Entity) : Value :=
  getProp e c.propertyName

/-- An ancestor/descendant column of the closure junction table. -/
structure JunctionColumn where
  propertyPath : String
  referencedColumn : RefColumn
deriving DecidableEq, Repr

/-- A join column of the tree parent relation. -/
structure JoinColumn where
  propertyName : String
  referencedColumn : RefColumn
deriving DecidableEq, Repr

/-- The tree parent (or children) relation: its property on the entity and its
join columns. -/
structure TreeRelation where
  propertyName : String
  joinColumns : List JoinColumn
deriving DecidableEq, Repr

/-- A primary-key column of the entity. -/
structure PrimaryColumn where
  propertyName : String
  databaseName : String
deriving DecidableEq, Repr

def PrimaryColumn.getEntityValue (c : PrimaryColumn) (e : Entity) : Value :=
  getProp e c.propertyName

/-- The closure junction table descriptor. -/
structure ClosureJunction where
  tableName : String
  ancestorColumns : List JunctionColumn
  descendantColumns : List JunctionColumn
deriving DecidableEq, Repr

/-- A column addressed only by property path (nested-set bounds, materialized
path). -/
structure PathColumn where
  propertyPath : String
deriving DecidableEq, Repr

/-- The entity metadata consumed by the tree repository (an external
descriptor service; the fields mirror exactly the members the source reads). -/
structure Metadata where
  treeType : String
  targetName : String
  closureJunctionTable : ClosureJunction
  treeParentRelation : TreeRelation
  treeChildrenRelation : TreeRelation
  primaryColumns : List PrimaryColumn
  nestedSetLeftColumn : PathColumn
  nestedSetRightColumn : PathColumn
  materializedPathColumn : PathColumn

/-- The driver/dialect adapter: identifier escaping and the SQLite-vs-CONCAT
dialect switch (`driver instanceof AbstractSqliteDriver`). -/
structure Driver where
  isSqlite : Bool
  escape : String → String

/-- The repository: the metadata of its entity type plus the active driver. -/
structure Repo where
  metadata : Metadata
  driver : Driver

/-- The relational state the queries run against: the closure junction rows
and the entity table's rows. -/
structure Database where
  junction : List Entity
  table : List Entity

/-- `primaryColumns[0]` (tree entities always declare a primary column;
indexing an empty list yields the JavaScript `undefined` read, modelled as
`vundef`). -/
def getPrimaryValue (repo : Repo) (e : Entity) : Value :=
  match repo.metadata.primaryColumns with
  | [] => Value.vundef
  | pc :: _ => pc.getEntityValue e

/-- The select query a tree query builder produces: the root alias, an
optional inner join (table, join alias, join condition), the where condition,
and the bound parameters. -/
structure SelectQuery where
  aliasName : String
  join : Option (String × String × String)
  whereCond : String
  parameters : List (String × Value)
deriving DecidableEq, Repr

/-- `metadata.getEntityIdMap(entity)`: the entity's primary-key values keyed by
primary property name. -/
def getEntityIdMap (repo : Repo) (entity : Entity) : List (String × Value) :=
  repo.metadata.primaryColumns.map (fun pc => (pc.propertyName, pc.getEntityValue entity))

/-- Modelled from the spec: the external query-construction service's rendering
of the correlated sub-query used by the materialized-path branches ("a
correlated sub-query selects the path of the given entity by primary key");
`subQuery.getQuery()` itself lives in `SelectQueryBuilder`, outside the
verified source. Only its opacity matters to the claims: the outer conditions
are stated in terms of this string. -/
def subQueryGetQuery (repo : Repo) (entity : Entity) : String :=
  "(SELECT " ++ repo.metadata.targetName ++ "." ++
    repo.metadata.materializedPathColumn.propertyPath ++ " FROM " ++
    repo.metadata.targetName ++ " WHERE " ++
    String.intercalate " AND "
      ((getEntityIdMap repo entity).map (fun kv => kv.1 ++ " = :" ++ kv.1)) ++ ")"

/-- `createDescendantsQueryBuilder(alias, closureTableAlias, entity)`: the
query builder for the descendants of `entity`, dispatching on the declared
tree encoding; unknown encodings raise "Supported only in tree entities". -/
def createDescendantsQueryBuilder (repo : Repo) (aliasName closureTableAlias : String)
    (entity : Entity) : Except String SelectQuery :=
  let md := repo.metadata
  let esc := repo.driver.escape
  if md.treeType = "closure-table" then
    let joinCondition := String.intercalate " AND "
      (md.closureJunctionTable.descendantColumns.map (fun column =>
        esc closureTableAlias ++ "." ++ esc column.propertyPath ++ " = " ++
          esc aliasName ++ "." ++ esc column.referencedColumn.propertyPath))
    let parameters := md.closureJunctionTable.ancestorColumns.foldl
      (fun ps column => objInsert ps column.referencedColumn.propertyName
        (column.referencedColumn.getEntityValue entity)) []
    let whereCondition := String.intercalate " AND "
      (md.closureJunctionTable.ancestorColumns.map (fun column =>
        esc closureTableAlias ++ "." ++ esc column.propertyPath ++ " = :" ++
          column.referencedColumn.propertyName))
    Except.ok { aliasName := aliasName,
                join := some (md.closureJunctionTable.tableName, closureTableAlias, joinCondition),
                whereCond := whereCondition, parameters := parameters }
  else if md.treeType = "nested-set" then
    let whereCondition := aliasName ++ "." ++ md.nestedSetLeftColumn.propertyPath ++
      " BETWEEN " ++ "joined." ++ md.nestedSetLeftColumn.propertyPath ++ " AND joined." ++
      md.nestedSetRightColumn.propertyPath
    let parameters := md.treeParentRelation.joinColumns.foldl
      (fun ps joinColumn => objInsert ps
        (jsReplaceFirst joinColumn.referencedColumn.propertyPath "." "_")
        (joinColumn.referencedColumn.getEntityValue entity)) []
    let joinCondition := String.intercalate " AND "
      (md.treeParentRelation.joinColumns.map (fun joinColumn =>
        "joined." ++ joinColumn.referencedColumn.propertyPath ++ " = :" ++
          jsReplaceFirst joinColumn.referencedColumn.propertyPath "." "_"))
    Except.ok { aliasName := aliasName,
                join := some (md.targetName, "joined", whereCondition),
                whereCond := joinCondition, parameters := parameters }
  else if md.treeType = "materialized-path" then
    let sq := subQueryGetQuery repo entity
    let whereCondition :=
      if repo.driver.isSqlite then
        aliasName ++ "." ++ md.materializedPathColumn.propertyPath ++ " LIKE " ++ sq ++ " || '%'"
      else
        aliasName ++ "." ++ md.materializedPathColumn.propertyPath ++ " LIKE CONCAT(" ++ sq ++ ", '%')"
    Except.ok { aliasName := aliasName, join := none,
                whereCond := whereCondition, parameters := getEntityIdMap repo entity }
  else
    Except.error "Supported only in tree entities"

/-- `createAncestorsQueryBuilder(alias, closureTableAlias, entity)`: the query
builder for the ancestors of `entity`; the mirror image of the descendants
builder, with ancestor/descendant roles swapped (and, per the source, no
identifier escaping in the closure branch). -/
def createAncestorsQueryBuilder (repo : Repo) (aliasName closureTableAlias : String)
    (entity : Entity) : Except String SelectQuery :=
  let md := repo.metadata
  if md.treeType = "closure-table" then
    let joinCondition := String.intercalate " AND "
      (md.closureJunctionTable.ancestorColumns.map (fun column =>
        closureTableAlias ++ "." ++ column.propertyPath ++ " = " ++
          aliasName ++ "." ++ column.referencedColumn.propertyPath))
    let parameters := md.closureJunctionTable.descendantColumns.foldl
      (fun ps column => objInsert ps column.referencedColumn.propertyName
        (column.referencedColumn.getEntityValue entity)) []
    let whereCondition := String.intercalate " AND "
      (md.closureJunctionTable.descendantColumns.map (fun column =>
        closureTableAlias ++ "." ++ column.propertyPath ++ " = :" ++
          column.referencedColumn.propertyName))
    Except.ok { aliasName := aliasName,
                join := some (md.closureJunctionTable.tableName, closureTableAlias, joinCondition),
                whereCond := whereCondition, parameters := parameters }
  else if md.treeType = "nested-set" then
    let joinCondition := "joined." ++ md.nestedSetLeftColumn.propertyPath ++ " BETWEEN " ++
      aliasName ++ "." ++ md.nestedSetLeftColumn.propertyPath ++ " AND " ++
      aliasName ++ "." ++ md.nestedSetRightColumn.propertyPath
    let parameters := md.treeParentRelation.joinColumns.foldl
      (fun ps joinColumn => objInsert ps
        (jsReplaceFirst joinColumn.referencedColumn.propertyPath "." "_")
        (joinColumn.referencedColumn.getEntityValue entity)) []
    let whereCondition := String.intercalate " AND "
      (md.treeParentRelation.joinColumns.map (fun joinColumn =>
        "joined." ++ joinColumn.referencedColumn.propertyPath ++ " = :" ++
          jsReplaceFirst joinColumn.referencedColumn.propertyPath "." "_"))
    Except.ok { aliasName := aliasName,
                join := some (md.targetName, "joined", joinCondition),
                whereCond := whereCondition, parameters := parameters }
  else if md.treeType = "materialized-path" then
    let sq := subQueryGetQuery repo entity
    let whereCondition :=
      if repo.driver.isSqlite then
        sq ++ " LIKE " ++ aliasName ++ "." ++ md.materializedPathColumn.propertyPath ++ " || '%'"
      else
        sq ++ " LIKE CONCAT(" ++ aliasName ++ "." ++ md.materializedPathColumn.propertyPath ++ ", '%')"
    Except.ok { aliasName := aliasName, join := none,
                whereCond := whereCondition, parameters := getEntityIdMap repo entity }
  else
    Except.error "Supported only in tree entities"

/-- Modelled from the spec: the external query-execution service's result set
for the descendants query the builder produces (§6: "build filtered/joined
queries, execute them, retrieve hydrated entities"). Closure-table: entities
joined to a junction row whose descendant columns reference them and whose
ancestor columns hold the given entity's key; nested-set: entities whose left
bound lies between the bounds of the row matching the entity's key;
materialized-path: entities whose path starts with the path selected by the
sub-query (the `LIKE ... '%'` prefix match). -/
def execDescendantsSem (repo : Repo) (db : Database) (entity : Entity) : List Entity :=
  let md := repo.metadata
  if md.treeType = "closure-table" then
    db.table.filter (fun x => db.junction.any (fun row =>
      decide ((∀ c ∈ md.closureJunctionTable.descendantColumns,
          row.lookup c.propertyPath = some (getProp x c.referencedColumn.propertyPath)) ∧
        (∀ c ∈ md.closureJunctionTable.ancestorColumns,
          row.lookup c.propertyPath = some (c.referencedColumn.getEntityValue entity)))))
  else if md.treeType = "nested-set" then
    db.table.filter (fun x => db.table.any (fun joined =>
      sqlBetween (getProp x md.nestedSetLeftColumn.propertyPath)
        (getProp joined md.nestedSetLeftColumn.propertyPath)
        (getProp joined md.nestedSetRightColumn.propertyPath) &&
      decide (∀ jc ∈ md.treeParentRelation.joinColumns,
        getProp joined jc.referencedColumn.propertyPath = jc.referencedColumn.getEntityValue entity)))
  else if md.treeType = "materialized-path" then
    match db.table.find? (fun r =>
      decide (∀ pc ∈ md.primaryColumns, getProp r pc.propertyName = pc.getEntityValue entity)) with
    | none => []
    | some r => db.table.filter (fun x =>
        likeStartsWith (getProp x md.materializedPathColumn.propertyPath)
          (getProp r md.materializedPathColumn.propertyPath))
  else []

/-- Modelled from the spec: the external query-execution service's result set
for the ancestors query; the mirror image of `execDescendantsSem` ("Ancestors:
swap ancestor/descendant roles symmetrically" / "invert the between-condition"
/ "the given entity's path must start with the candidate row's path"). -/
def execAncestorsSem (repo : Repo) (db : Database) (entity : Entity) : List Entity :=
  let md := repo.metadata
  if md.treeType = "closure-table" then
    db.table.filter (fun x => db.junction.any (fun row =>
      decide ((∀ c ∈ md.closureJunctionTable.ancestorColumns,
          row.lookup c.propertyPath = some (getProp x c.referencedColumn.propertyPath)) ∧
        (∀ c ∈ md.closureJunctionTable.descendantColumns,
          row.lookup c.propertyPath = some (c.referencedColumn.getEntityValue entity)))))
  else if md.treeType = "nested-set" then
    db.table.filter (fun x => db.table.any (fun joined =>
      sqlBetween (getProp joined md.nestedSetLeftColumn.propertyPath)
        (getProp x md.nestedSetLeftColumn.propertyPath)
        (getProp x md.nestedSetRightColumn.propertyPath) &&
      decide (∀ jc ∈ md.treeParentRelation.joinColumns,
        getProp joined jc.referencedColumn.propertyPath = jc.referencedColumn.getEntityValue entity)))
  else if md.treeType = "materialized-path" then
    match db.table.find? (fun r =>
      decide (∀ pc ∈ md.primaryColumns, getProp r pc.propertyName = pc.getEntityValue entity)) with
    | none => []
    | some r => db.table.filter (fun x =>
        likeStartsWith (getProp r md.materializedPathColumn.propertyPath)
          (getProp x md.materializedPathColumn.propertyPath))
  else []

/-- `findDescendants(entity)`: build the descendants query and execute it
(`getMany`); fails, before anything executes, when the builder raises. -/
def findDescendants (repo : Repo) (db : Database) (entity : Entity) :
    Except String (List Entity) :=
  match createDescendantsQueryBuilder repo "treeEntity" "treeClosure" entity with
  | Except.error e => Except.error e
  | Except.ok _ => Except.ok (execDescendantsSem repo db entity)

/-- `findAncestors(entity)`: build the ancestors query and execute it. -/
def findAncestors (repo : Repo) (db : Database) (entity : Entity) :
    Except String (List Entity) :=
  match createAncestorsQueryBuilder repo "treeEntity" "treeClosure" entity with
  | Except.error e => Except.error e
  | Except.ok _ => Except.ok (execAncestorsSem repo db entity)

/-- The delete statement the move planner builds (table, rendered where
condition, bound parameters). -/
structure DeleteQuery where
  table : String
  whereCond : String
  parameters : List (String × Value)
deriving DecidableEq, Repr

/-- The insert statement the move planner builds (table and value rows). -/
structure InsertQuery where
  table : String
  values : List (List (String × Value))
deriving DecidableEq, Repr

/-- A write query in a move plan. -/
inductive Query where
  | del : DeleteQuery → Query
  | ins : InsertQuery → Query
deriving DecidableEq, Repr

/-- The `descendantWhereCondition` / `delAncestorsParameters` pair of the move
planner: one parenthesised conjunct per fetched descendant (parameter keys are
salted with the descendant's value: `propertyName + eVal`), joined with
`" OR "`; the parameters object accumulates across descendants. -/
def buildDeleteCondition (repo : Repo) (entDescendants : List Entity) :
    List (String × Value) × String :=
  let esc := repo.driver.escape
  let folded := entDescendants.foldl (fun acc e =>
    let inner := repo.metadata.closureJunctionTable.descendantColumns.foldl
      (fun acc2 column =>
        let eVal := column.referencedColumn.getEntityValue e
        let eKey := column.referencedColumn.propertyName ++ valueToStr eVal
        (objInsert acc2.1 eKey eVal, acc2.2 ++ [esc column.propertyPath ++ " = :" ++ eKey]))
      (acc.1, ([] : List String))
    (inner.1, acc.2 ++ ["(" ++ String.intercalate " AND " inner.2 ++ ")"]))
    (([] : List (String × Value)), ([] : List String))
  (folded.1, String.intercalate " OR " folded.2)

/-- The `closuresToInsert` accumulation of the move planner: for every ancestor
in `toAncestors`, spread its ancestor-column partial over each descendant's
descendant-column partial. -/
def buildClosuresToInsert (repo : Repo) (toAncestors entDescendants : List Entity) :
    List (List (String × Value)) :=
  toAncestors.foldl (fun closures ancestorEntity =>
    let ancestorPartial := repo.metadata.closureJunctionTable.ancestorColumns.foldl
      (fun prevPartial column =>
        objInsert prevPartial column.propertyPath
          (column.referencedColumn.getEntityValue ancestorEntity)) []
    let descendentPartials := entDescendants.map (fun descendantEntity =>
      repo.metadata.closureJunctionTable.descendantColumns.foldl
        (fun prevPartial column =>
          objInsert prevPartial column.propertyPath
            (column.referencedColumn.getEntityValue descendantEntity)) [])
    let newClosuresToInsert := descendentPartials.map (fun dp => objSpread ancestorPartial dp)
    closures ++ newClosuresToInsert) []

/-- `moveEntityQueriesBuilder(alias, closureTableAlias, entity, to)`: fetch the
entity's descendants and the destination's ancestors, append the entity itself
to the ancestor set, and — for the closure-table encoding only — produce the
delete-then-insert plan; other encodings yield an empty plan. -/
def moveEntityQueriesBuilder (repo : Repo) (db : Database)
    (aliasName closureTableAlias : String) (entity : Entity) (toEntity : Option Entity) :
    Except String (List Query) := do
  let entDescendants ← findDescendants repo db entity
  let fetchedAncestors ← match toEntity with
    | some t => findAncestors repo db t
    | none => pure []
  let toAncestors := fetchedAncestors ++ [entity]
  if repo.metadata.treeType = "closure-table" then
    let built := buildDeleteCondition repo entDescendants
    let clearAncestorsQuery : DeleteQuery :=
      { table := repo.metadata.closureJunctionTable.tableName,
        whereCond := built.2, parameters := built.1 }
    let closuresToInsert := buildClosuresToInsert repo toAncestors entDescendants
    let insertAncestorsQuery : InsertQuery :=
      { table := repo.metadata.closureJunctionTable.tableName, values := closuresToInsert }
    pure [Query.del clearAncestorsQuery, Query.ins insertAncestorsQuery]
  else
    pure []

/-- One write performed inside the move transaction: executing a planned query,
or persisting an entity after its parent-relation property (named by the first
argument) has been set to the destination entity. -/
inductive TxOp where
  | exec : Query → TxOp
  | save : String → Entity → Option Entity → TxOp
deriving DecidableEq, Repr

/-- A single unit of work handed to the external transaction manager. -/
structure Transaction where
  ops : List TxOp
deriving DecidableEq, Repr

/-- `move(entity, to)`: build the move plan, then run — inside one transaction
— every planned query followed by the parent-relation update and save of
`entity` (`joinColumn.setEntityValue(entity, to)` on
`treeParentRelation.joinColumns[0]`, then `transactionManager.save(entity)`).
Reading `joinColumns[0]` of an empty list is the JavaScript `TypeError`. -/
def move (repo : Repo) (db : Database) (entity : Entity) (toEntity : Option Entity) :
    Except String Transaction := do
  let moveQueries ← moveEntityQueriesBuilder repo db "treeEntity" "treeClosure" entity toEntity
  match repo.metadata.treeParentRelation.joinColumns with
  | [] => Except.error "TypeError"
  | joinColumn :: _ =>
    pure { ops := moveQueries.map TxOp.exec ++ [TxOp.save joinColumn.propertyName entity toEntity] }

/-- Run a list of transaction ops under an abstract per-op effect `step`;
`none` at any op aborts the whole unit. Modelled from the spec: the external
transaction manager (§6) runs a unit of work atomically. -/
def applyOps (step : Database → TxOp → Option Database) :
    Database → List TxOp → Option Database
  | db, [] => some db
  | db, op :: rest =>
    match step db op with
    | none => none
    | some db2 => applyOps step db2 rest

/-- Modelled from the spec: "all three statements must commit or roll back
together" — a transaction either applies all its ops or leaves the state
unchanged. -/
def runTransaction (step : Database → TxOp → Option Database) (db : Database)
    (tx : Transaction) : Database :=
  match applyOps step db tx.ops with
  | some db2 => db2
  | none => db

/-- A relation-map entry derived from raw query output: (entityId, parentId). -/
structure RelationMap where
  id : Value
  parentId : Value
deriving DecidableEq, Repr

/-- `primaryColumns[0].propertyName`. -/
def primaryPropertyName (repo : Repo) : String :=
  match repo.metadata.primaryColumns with
  | [] => "undefined"
  | pc :: _ => pc.propertyName

/-- One step of `buildParentEntityTree`: find the relation-map entry for the
current node's own id, then locate among the fetched entities the one whose
primary property equals that entry's parentId (`undefined` relation-map entry
makes the inner predicate false for every candidate, as in the source). -/
def parentStep (repo : Repo) (entities : List Entity) (relationMaps : List RelationMap)
    (entity : Entity) : Option Entity :=
  let entityId := getPrimaryValue repo entity
  let parentRelationMap := relationMaps.find? (fun rm => decide (rm.id = entityId))
  entities.find? (fun e =>
    match parentRelationMap with
    | none => false
    | some prm => decide (getProp e (primaryPropertyName repo) = prm.parentId))

/-- `buildParentEntityTree(entity, entities, relationMaps)`: assign the located
parent and recurse upward; the source recurses unboundedly, so the embedding
takes explicit fuel and returns the chain of assigned parents (`none` means
the fuel ran out before the recursion stopped). -/
def buildParentEntityTree (repo : Repo) (entities : List Entity)
    (relationMaps : List RelationMap) : Nat → Entity → Option (List Entity)
  | 0, _ => none
  | fuel + 1, entity =>
    match parentStep repo entities relationMaps entity with
    | none => some []
    | some parentEntity =>
      (buildParentEntityTree repo entities relationMaps fuel parentEntity).map
        (fun chain => parentEntity :: chain)

/-- The children assignment of `buildChildrenEntityTree`: relation-map entries
whose parentId equals the node's primary value give the child ids, and the
children are the fetched entities whose LITERAL `id` property occurs among
those ids (`childIds.indexOf(entity.id) !== -1` in the source). -/
def assignedChildren (repo : Repo) (entity : Entity) (entities : List Entity)
    (relationMaps : List RelationMap) : List Entity :=
  let parentEntityId := getPrimaryValue repo entity
  let childRelationMaps := relationMaps.filter (fun rm => decide (rm.parentId = parentEntityId))
  let childIds := childRelationMaps.map (fun rm => rm.id)
  entities.filter (fun e => childIds.contains (getProp e "id"))

/-- A node of the assembled in-memory tree: the entity together with the
children collection assigned onto it. -/
inductive TreeNode where
  | node : Entity → List TreeNode → TreeNode

/-- `buildChildrenEntityTree(entity, entities, relationMaps)`: assign the
children collection and recurse into each child; fueled like the parent
builder since the source recursion is unbounded on cyclic relation maps. -/
def buildChildrenEntityTree (repo : Repo) (entities : List Entity)
    (relationMaps : List RelationMap) : Nat → Entity → Option TreeNode
  | 0, _ => none
  | fuel + 1, entity =>
    let children := assignedChildren repo entity entities relationMaps
    (children.mapM (fun c => buildChildrenEntityTree repo entities relationMaps fuel c)).map
      (fun subtrees => TreeNode.node entity subtrees)

/-!
## Relational notions the claims quantify over
-/

/-- One child edge of the tree the database rows encode: `y` is an immediate
child of `x` when `y`'s parent-relation column holds `x`'s primary value. -/
def childStep (pkName parentName : String) (x y : Entity) : Prop :=
  getProp y parentName = getProp x pkName

/-- The junction relation is the ancestor/descendant closure of the child
edges, including each reflexive pair: a junction row with ancestor value `a`
and descendant value `d` exists exactly when some entities with those primary
values are related by zero or more child edges. -/
def junctionIsClosure (db : Database) (ancPath descPath pkName parentName : String) : Prop :=
  ∀ a d : Value,
    (∃ row ∈ db.junction, row.lookup ancPath = some a ∧ row.lookup descPath = some d) ↔
    (∃ p q, p ∈ db.table ∧ q ∈ db.table ∧ getProp p pkName = a ∧ getProp q pkName = d ∧
      Relation.ReflTransGen (childStep pkName parentName) p q)

/-- The edge relation of a relation map: entry id to entry parentId. -/
def rmEdge (relationMaps : List RelationMap) (a b : Value) : Prop :=
  ∃ rm ∈ relationMaps, rm.id = a ∧ rm.parentId = b

/-- A relation-map edge whose parent id is realised by a fetched entity (the
only edges `buildParentEntityTree` can actually follow). -/
def relEdge (pkName : String) (entities : List Entity) (relationMaps : List RelationMap)
    (a b : Value) : Prop :=
  rmEdge relationMaps a b ∧ ∃ e ∈ entities, getProp e pkName = b

/-!
## Concrete instances

The four-node closure-table fixture of the repository's own move test
(`gh_193`: A root; B and C children of A; D child of C), a postgres-style
driver, and the small instances the witnesses use.
-/

def refId : RefColumn := { propertyName := "id", propertyPath := "id" }

def mdGh : Metadata :=
  { treeType := "closure-table"
    targetName := "gh_193"
    closureJunctionTable :=
      { tableName := "gh_193_closure"
        ancestorColumns := [{ propertyPath := "id_ancestor", referencedColumn := refId }]
        descendantColumns := [{ propertyPath := "id_descendant", referencedColumn := refId }] }
    treeParentRelation :=
      { propertyName := "parentCategory"
        joinColumns := [{ propertyName := "parentCategory", referencedColumn := refId }] }
    treeChildrenRelation := { propertyName := "childCategories", joinColumns := [] }
    primaryColumns := [{ propertyName := "id", databaseName := "id" }]
    nestedSetLeftColumn := { propertyPath := "nsleft" }
    nestedSetRightColumn := { propertyPath := "nsright" }
    materializedPathColumn := { propertyPath := "mpath" } }

def pgDriver : Driver := { isSqlite := false, escape := fun s => "\"" ++ s ++ "\"" }

def repoGh : Repo := { metadata := mdGh, driver := pgDriver }

def entA : Entity := [("id", Value.vnum 1), ("name", Value.vstr "A")]
def entB : Entity := [("id", Value.vnum 2), ("name", Value.vstr "B")]
def entC : Entity := [("id", Value.vnum 3), ("name", Value.vstr "C")]
def entD : Entity := [("id", Value.vnum 4), ("name", Value.vstr "D")]

/-- A junction row (ancestor, descendant). -/
def jrow (a d : Int) : Entity := [("id_ancestor", Value.vnum a), ("id_descendant", Value.vnum d)]

/-- The starting state of the move test: junction = closure of A(B, C(D)). -/
def dbGh : Database :=
  { junction := [jrow 1 1, jrow 2 2, jrow 3 3, jrow 4 4, jrow 1 2, jrow 1 3, jrow 1 4, jrow 3 4]
    table := [entA, entB, entC, entD] }

/-- A one-node closure-table state: A alone, with only its reflexive pair. -/
def dbOne : Database := { junction := [jrow 1 1], table := [entA] }

/-- An empty database (no junction rows at all). -/
def dbEmpty : Database := { junction := [], table := [entA] }

/-- The gh_193 metadata redeclared with an unsupported tree type. -/
def repoPlain : Repo := { metadata := { mdGh with treeType := "plain" }, driver := pgDriver }

/-- The gh_193 metadata redeclared as nested-set. -/
def repoNested : Repo := { metadata := { mdGh with treeType := "nested-set" }, driver := pgDriver }

/-- The gh_193 metadata redeclared as materialized-path. -/
def repoMpOfGh : Repo :=
  { metadata := { mdGh with treeType := "materialized-path" }, driver := pgDriver }

def sqliteDriver : Driver := { isSqlite := true, escape := fun s => "\"" ++ s ++ "\"" }

/-- A materialized-path repository on a SQLite-style driver. -/
def repoMp : Repo :=
  { metadata := { mdGh with treeType := "materialized-path", targetName := "category" }
    driver := sqliteDriver }

def rowMp1 : Entity := [("id", Value.vnum 1), ("mpath", Value.vstr "1.")]
def rowMp2 : Entity := [("id", Value.vnum 2), ("mpath", Value.vstr "1.2.")]

def dbMp : Database := { junction := [], table := [rowMp1, rowMp2] }

/-- Entities and relation maps for the parent-chain termination witness:
entity 1's relation-map entry points at entity 2, which has no entry. -/
def ents8 : List Entity := [[("id", Value.vnum 1)], [("id", Value.vnum 2)]]

def maps8 : List RelationMap := [{ id := Value.vnum 1, parentId := Value.vnum 2 }]

/-- A repository whose primary-key property is named `pk`, not `id`. -/
def repoPk : Repo :=
  { metadata := { mdGh with primaryColumns := [{ propertyName := "pk", databaseName := "pk" }] }
    driver := pgDriver }

/-- An entity of the `pk`-keyed type that also declares a plain column
literally named `id`. -/
def entX9 : Entity := [("pk", Value.vnum 7), ("id", Value.vnum 5)]

/-- The node whose children are being assembled (primary value 1). -/
def entE9 : Entity := [("pk", Value.vnum 1)]

/-- Relation map: the entity with id 5 is a child of the entity with id 1. -/
def maps9 : List RelationMap := [{ id := Value.vnum 5, parentId := Value.vnum 1 }]

/-- A `pk`-keyed entity without any property literally named `id`. -/
def entY9 : Entity := [("pk", Value.vnum 5)]

/-!
## Helper lemmas
-/

theorem findDescendants_eq_sem (repo : Repo) (db : Database) (entity : Entity)
    (h : repo.metadata.treeType = "closure-table" ∨ repo.metadata.treeType = "nested-set" ∨
      repo.metadata.treeType = "materialized-path") :
    findDescendants repo db entity = Except.ok (execDescendantsSem repo db entity) := by
  rcases h with h | h | h <;>
    simp only [findDescendants, createDescendantsQueryBuilder, h] <;> rfl

theorem findAncestors_eq_sem (repo : Repo) (db : Database) (entity : Entity)
    (h : repo.metadata.treeType = "closure-table" ∨ repo.metadata.treeType = "nested-set" ∨
      repo.metadata.treeType = "materialized-path") :
    findAncestors repo db entity = Except.ok (execAncestorsSem repo db entity) := by
  rcases h with h | h | h <;>
    simp only [findAncestors, createAncestorsQueryBuilder, h] <;> rfl

theorem findDescendants_unsupported (repo : Repo) (db : Database) (entity : Entity)
    (h1 : repo.metadata.treeType ≠ "closure-table") (h2 : repo.metadata.treeType ≠ "nested-set")
    (h3 : repo.metadata.treeType ≠ "materialized-path") :
    findDescendants repo db entity = Except.error "Supported only in tree entities" := by
  simp only [findDescendants, createDescendantsQueryBuilder, if_neg h1, if_neg h2, if_neg h3]

theorem findAncestors_unsupported (repo : Repo) (db : Database) (entity : Entity)
    (h1 : repo.metadata.treeType ≠ "closure-table") (h2 : repo.metadata.treeType ≠ "nested-set")
    (h3 : repo.metadata.treeType ≠ "materialized-path") :
    findAncestors repo db entity = Except.error "Supported only in tree entities" := by
  simp only [findAncestors, createAncestorsQueryBuilder, if_neg h1, if_neg h2, if_neg h3]

/-- The move plan under the closure-table encoding, in terms of the fetched
descendant and ancestor sets. -/
theorem moveEQB_closure (repo : Repo) (db : Database) (aliasName closureTableAlias : String)
    (entity : Entity) (toEntity : Option Entity)
    (hT : repo.metadata.treeType = "closure-table") :
    moveEntityQueriesBuilder repo db aliasName closureTableAlias entity toEntity =
      Except.ok [
        Query.del
          { table := repo.metadata.closureJunctionTable.tableName
            whereCond := (buildDeleteCondition repo (execDescendantsSem repo db entity)).2
            parameters := (buildDeleteCondition repo (execDescendantsSem repo db entity)).1 },
        Query.ins
          { table := repo.metadata.closureJunctionTable.tableName
            values := buildClosuresToInsert repo
              ((match toEntity with
                | some t => execAncestorsSem repo db t
                | none => []) ++ [entity])
              (execDescendantsSem repo db entity) }] := by
  cases toEntity with
  | none =>
    simp only [moveEntityQueriesBuilder,
      findDescendants_eq_sem repo db entity (Or.inl hT),
      Except.bind, bind, pure, Except.pure, if_pos hT]
  | some t =>
    simp only [moveEntityQueriesBuilder,
      findDescendants_eq_sem repo db entity (Or.inl hT),
      findAncestors_eq_sem repo db t (Or.inl hT),
      Except.bind, bind, pure, Except.pure, if_pos hT]

/-- The move plan under the other two supported encodings is empty. -/
theorem moveEQB_other (repo : Repo) (db : Database) (aliasName closureTableAlias : String)
    (entity : Entity) (toEntity : Option Entity)
    (hT : repo.metadata.treeType = "nested-set" ∨ repo.metadata.treeType = "materialized-path") :
    moveEntityQueriesBuilder repo db aliasName closureTableAlias entity toEntity =
      Except.ok [] := by
  have hNe : repo.metadata.treeType ≠ "closure-table" := by
    rcases hT with h | h <;> rw [h] <;> decide
  cases toEntity with
  | none =>
    simp only [moveEntityQueriesBuilder,
      findDescendants_eq_sem repo db entity (Or.inr hT),
      Except.bind, bind, pure, Except.pure, if_neg hNe]
  | some t =>
    simp only [moveEntityQueriesBuilder,
      findDescendants_eq_sem repo db entity (Or.inr hT),
      findAncestors_eq_sem repo db t (Or.inr hT),
      Except.bind, bind, pure, Except.pure, if_neg hNe]

theorem buildDeleteCondition_nil (repo : Repo) :
    buildDeleteCondition repo [] = ([], "") := rfl

theorem buildClosuresToInsert_nil (repo : Repo) (toAncestors : List Entity) :
    buildClosuresToInsert repo toAncestors [] = [] := by
  have aux : ∀ (l : List Entity) (acc : List (List (String × Value))),
      l.foldl (fun closures ancestorEntity =>
        let ancestorPartial := repo.metadata.closureJunctionTable.ancestorColumns.foldl
          (fun prevPartial column =>
            objInsert prevPartial column.propertyPath
              (column.referencedColumn.getEntityValue ancestorEntity)) []
        let descendentPartials := ([] : List Entity).map (fun descendantEntity =>
          repo.metadata.closureJunctionTable.descendantColumns.foldl
            (fun prevPartial column =>
              objInsert prevPartial column.propertyPath
                (column.referencedColumn.getEntityValue descendantEntity)) [])
        let newClosuresToInsert := descendentPartials.map (fun dp => objSpread ancestorPartial dp)
        closures ++ newClosuresToInsert) acc = acc := by
    intro l
    induction l with
    | nil => intro acc; rfl
    | cons hd tl ih => intro acc; simpa using ih acc
  exact aux toAncestors []

/-!
## Claim theorems
-/

/-- C1: on the four-node closure-table fixture (A root; B and C children of
A; D child of C), `moveEntityQueriesBuilder` for moving B under C produces
exactly two queries — a delete whose condition matches junction rows with
descendant equal to B's id (bound parameter 2), and an insert adding the
junction rows (A,B), (C,B), (B,B) — and `move` then runs them and persists B
with its parent-relation value set to C. -/
theorem c1_closure_move_scenario :
    moveEntityQueriesBuilder repoGh dbGh "treeEntity" "treeClosure" entB (some entC) =
      Except.ok
        [Query.del
          { table := "gh_193_closure"
            whereCond := "(\"id_descendant\" = :id2)"
            parameters := [("id2", Value.vnum 2)] },
         Query.ins
          { table := "gh_193_closure"
            values :=
              [[("id_ancestor", Value.vnum 1), ("id_descendant", Value.vnum 2)],
               [("id_ancestor", Value.vnum 3), ("id_descendant", Value.vnum 2)],
               [("id_ancestor", Value.vnum 2), ("id_descendant", Value.vnum 2)]] }] ∧
    move repoGh dbGh entB (some entC) =
      Except.ok
        { ops :=
            [TxOp.exec (Query.del
              { table := "gh_193_closure"
                whereCond := "(\"id_descendant\" = :id2)"
                parameters := [("id2", Value.vnum 2)] }),
             TxOp.exec (Query.ins
              { table := "gh_193_closure"
                values :=
                  [[("id_ancestor", Value.vnum 1), ("id_descendant", Value.vnum 2)],
                   [("id_ancestor", Value.vnum 3), ("id_descendant", Value.vnum 2)],
                   [("id_ancestor", Value.vnum 2), ("id_descendant", Value.vnum 2)]] }),
             TxOp.save "parentCategory" entB (some entC)] } :=
  ⟨rfl, rfl⟩

/-- C4: for an entity whose declared tree encoding is nested-set or
materialized-path, `moveEntityQueriesBuilder` returns an empty list of write
operations, so `move` performs no junction-table changes (its transaction
holds only the parent-relation save). -/
theorem c4_non_closure_empty_plan (repo : Repo) (db : Database)
    (aliasName closureTableAlias : String) (entity : Entity) (toEntity : Option Entity)
    (jc : JoinColumn) (rest : List JoinColumn)
    (hT : repo.metadata.treeType = "nested-set" ∨ repo.metadata.treeType = "materialized-path")
    (hJ : repo.metadata.treeParentRelation.joinColumns = jc :: rest) :
    moveEntityQueriesBuilder repo db aliasName closureTableAlias entity toEntity =
      Except.ok [] ∧
    move repo db entity toEntity =
      Except.ok { ops := [TxOp.save jc.propertyName entity toEntity] } := by
  refine ⟨moveEQB_other repo db aliasName closureTableAlias entity toEntity hT, ?_⟩
  have h2 := moveEQB_other repo db "treeEntity" "treeClosure" entity toEntity hT
  simp only [move, h2, hJ, Except.bind, bind, pure, Except.pure, List.map_nil,
    List.nil_append]

theorem c4_witness :
    moveEntityQueriesBuilder repoNested dbGh "treeEntity" "treeClosure" entB (some entC) =
      Except.ok [] ∧
    move repoNested dbGh entB (some entC) =
      Except.ok { ops := [TxOp.save "parentCategory" entB (some entC)] } :=
  c4_non_closure_empty_plan repoNested dbGh "treeEntity" "treeClosure" entB (some entC)
    { propertyName := "parentCategory", referencedColumn := refId } [] (Or.inl rfl) rfl

/-- C5: for an entity type whose declared encoding is none of closure-table,
nested-set, or materialized-path, every tree operation — the descendants and
ancestors query builders, the executed finds, the move planner, and `move` —
fails with the unsupported-operation error rather than returning a null or
empty result. -/
theorem c5_unsupported_error (repo : Repo) (db : Database)
    (aliasName closureTableAlias : String) (entity : Entity) (toEntity : Option Entity)
    (h1 : repo.metadata.treeType ≠ "closure-table")
    (h2 : repo.metadata.treeType ≠ "nested-set")
    (h3 : repo.metadata.treeType ≠ "materialized-path") :
    createDescendantsQueryBuilder repo aliasName closureTableAlias entity =
      Except.error "Supported only in tree entities" ∧
    createAncestorsQueryBuilder repo aliasName closureTableAlias entity =
      Except.error "Supported only in tree entities" ∧
    findDescendants repo db entity = Except.error "Supported only in tree entities" ∧
    findAncestors repo db entity = Except.error "Supported only in tree entities" ∧
    moveEntityQueriesBuilder repo db aliasName closureTableAlias entity toEntity =
      Except.error "Supported only in tree entities" ∧
    move repo db entity toEntity = Except.error "Supported only in tree entities" := by
  have hm : moveEntityQueriesBuilder repo db "treeEntity" "treeClosure" entity toEntity =
      Except.error "Supported only in tree entities" := by
    simp only [moveEntityQueriesBuilder, findDescendants_unsupported repo db entity h1 h2 h3,
      Except.bind, bind]
  refine ⟨?_, ?_, findDescendants_unsupported repo db entity h1 h2 h3,
    findAncestors_unsupported repo db entity h1 h2 h3, ?_, ?_⟩
  · simp only [createDescendantsQueryBuilder, if_neg h1, if_neg h2, if_neg h3]
  · simp only [createAncestorsQueryBuilder, if_neg h1, if_neg h2, if_neg h3]
  · simp only [moveEntityQueriesBuilder, findDescendants_unsupported repo db entity h1 h2 h3,
      Except.bind, bind]
  · simp only [move, hm, Except.bind, bind]

theorem c5_witness :
    repoPlain.metadata.treeType ≠ "closure-table" ∧
    findDescendants repoPlain dbGh entA = Except.error "Supported only in tree entities" ∧
    move repoPlain dbGh entA none = Except.error "Supported only in tree entities" :=
  ⟨by decide,
   (c5_unsupported_error repoPlain dbGh "treeEntity" "treeClosure" entA none
      (by decide) (by decide) (by decide)).2.2.1,
   (c5_unsupported_error repoPlain dbGh "treeEntity" "treeClosure" entA none
      (by decide) (by decide) (by decide)).2.2.2.2.2⟩

/-- C10: for a closure-table entity whose `findDescendants` comes back empty
(no junction rows at all, not even the reflexive pair), the move planner
builds a delete query whose where condition is the empty string — no
descendant restriction — and an insert query with an empty values list. -/
theorem c10_empty_descendants_move_queries (repo : Repo) (db : Database)
    (aliasName closureTableAlias : String) (entity : Entity) (toEntity : Option Entity)
    (hT : repo.metadata.treeType = "closure-table")
    (hD : findDescendants repo db entity = Except.ok []) :
    moveEntityQueriesBuilder repo db aliasName closureTableAlias entity toEntity =
      Except.ok
        [Query.del
          { table := repo.metadata.closureJunctionTable.tableName
            whereCond := ""
            parameters := [] },
         Query.ins { table := repo.metadata.closureJunctionTable.tableName, values := [] }] := by
  have hsem : execDescendantsSem repo db entity = [] := by
    have h := findDescendants_eq_sem repo db entity (Or.inl hT)
    rw [h] at hD
    simpa using hD
  rw [moveEQB_closure repo db aliasName closureTableAlias entity toEntity hT, hsem,
    buildClosuresToInsert_nil, buildDeleteCondition_nil]

theorem c10_witness :
    findDescendants repoGh dbEmpty entA = Except.ok [] ∧
    moveEntityQueriesBuilder repoGh dbEmpty "treeEntity" "treeClosure" entA none =
      Except.ok
        [Query.del { table := "gh_193_closure", whereCond := "", parameters := [] },
         Query.ins { table := "gh_193_closure", values := [] }] :=
  ⟨rfl, c10_empty_descendants_move_queries repoGh dbEmpty "treeEntity" "treeClosure" entA none
    rfl rfl⟩

/-- C6: under the closure-table encoding, `move` executes its three writes —
the junction delete, the junction insert, and the save of the entity with its
parent-relation property set to the destination — as the ops of one single
transaction handed to the transaction manager, whose semantics make all of
them take effect or none. -/
theorem c6_move_single_transaction (repo : Repo) (db : Database) (entity : Entity)
    (toEntity : Option Entity) (jc : JoinColumn) (rest : List JoinColumn)
    (hT : repo.metadata.treeType = "closure-table")
    (hJ : repo.metadata.treeParentRelation.joinColumns = jc :: rest) :
    ∃ q1 q2 : Query,
      moveEntityQueriesBuilder repo db "treeEntity" "treeClosure" entity toEntity =
        Except.ok [q1, q2] ∧
      move repo db entity toEntity =
        Except.ok
          { ops := [TxOp.exec q1, TxOp.exec q2,
              TxOp.save jc.propertyName entity toEntity] } ∧
      ∀ (step : Database → TxOp → Option Database) (db0 : Database),
        (applyOps step db0
            [TxOp.exec q1, TxOp.exec q2, TxOp.save jc.propertyName entity toEntity] = none ∧
          runTransaction step db0
            { ops := [TxOp.exec q1, TxOp.exec q2,
                TxOp.save jc.propertyName entity toEntity] } = db0) ∨
        applyOps step db0
            [TxOp.exec q1, TxOp.exec q2, TxOp.save jc.propertyName entity toEntity] =
          some (runTransaction step db0
            { ops := [TxOp.exec q1, TxOp.exec q2,
                TxOp.save jc.propertyName entity toEntity] }) := by
  have hq := moveEQB_closure repo db "treeEntity" "treeClosure" entity toEntity hT
  refine ⟨_, _, hq, ?_, ?_⟩
  · simp only [move, hq, hJ, Except.bind, bind, pure, Except.pure, List.map_cons,
      List.map_nil, List.cons_append, List.nil_append]
  · intro step db0
    cases h : applyOps step db0 _ with
    | none => exact Or.inl ⟨rfl, by simp [runTransaction, h]⟩
    | some d => exact Or.inr (by simp [runTransaction, h])

theorem c6_witness :
    ∃ q1 q2 : Query,
      moveEntityQueriesBuilder repoGh dbGh "treeEntity" "treeClosure" entB (some entC) =
        Except.ok [q1, q2] ∧
      move repoGh dbGh entB (some entC) =
        Except.ok
          { ops := [TxOp.exec q1, TxOp.exec q2,
              TxOp.save "parentCategory" entB (some entC)] } ∧
      ∀ (step : Database → TxOp → Option Database) (db0 : Database),
        (applyOps step db0
            [TxOp.exec q1, TxOp.exec q2, TxOp.save "parentCategory" entB (some entC)] = none ∧
          runTransaction step db0
            { ops := [TxOp.exec q1, TxOp.exec q2,
                TxOp.save "parentCategory" entB (some entC)] } = db0) ∨
        applyOps step db0
            [TxOp.exec q1, TxOp.exec q2, TxOp.save "parentCategory" entB (some entC)] =
          some (runTransaction step db0
            { ops := [TxOp.exec q1, TxOp.exec q2,
                TxOp.save "parentCategory" entB (some entC)] }) :=
  c6_move_single_transaction repoGh dbGh entB (some entC)
    { propertyName := "parentCategory", referencedColumn := refId } [] rfl rfl

/-- The closure-table branch of the descendants execution, spelled out. -/
theorem execDescSem_closure (repo : Repo) (db : Database) (entity : Entity)
    (hT : repo.metadata.treeType = "closure-table") :
    execDescendantsSem repo db entity =
      db.table.filter (fun x => db.junction.any (fun row =>
        decide ((∀ c ∈ repo.metadata.closureJunctionTable.descendantColumns,
            row.lookup c.propertyPath = some (getProp x c.referencedColumn.propertyPath)) ∧
          (∀ c ∈ repo.metadata.closureJunctionTable.ancestorColumns,
            row.lookup c.propertyPath = some (c.referencedColumn.getEntityValue entity))))) := by
  simp only [execDescendantsSem, hT]
  rfl

/-- The closure-table branch of the ancestors execution, spelled out. -/
theorem execAncSem_closure (repo : Repo) (db : Database) (entity : Entity)
    (hT : repo.metadata.treeType = "closure-table") :
    execAncestorsSem repo db entity =
      db.table.filter (fun x => db.junction.any (fun row =>
        decide ((∀ c ∈ repo.metadata.closureJunctionTable.ancestorColumns,
            row.lookup c.propertyPath = some (getProp x c.referencedColumn.propertyPath)) ∧
          (∀ c ∈ repo.metadata.closureJunctionTable.descendantColumns,
            row.lookup c.propertyPath = some (c.referencedColumn.getEntityValue entity))))) := by
  simp only [execAncestorsSem, hT]
  rfl

/-- C2 counterexample: the claim says the entity itself is never included as a
descendant target of the emitted delete; on the gh-193 fixture, moving B under
C binds B's own id (2) as a descendant value of the delete condition. -/
theorem c2_counterexample :
    ¬ (∀ (q : DeleteQuery) (rest : List Query),
        moveEntityQueriesBuilder repoGh dbGh "treeEntity" "treeClosure" entB (some entC) =
          Except.ok (Query.del q :: rest) →
        Value.vnum 2 ∉ q.parameters.map Prod.snd) := by
  intro h
  exact h
    { table := "gh_193_closure", whereCond := "(\"id_descendant\" = :id2)",
      parameters := [("id2", Value.vnum 2)] }
    [Query.ins
      { table := "gh_193_closure"
        values :=
          [[("id_ancestor", Value.vnum 1), ("id_descendant", Value.vnum 2)],
           [("id_ancestor", Value.vnum 3), ("id_descendant", Value.vnum 2)],
           [("id_ancestor", Value.vnum 2), ("id_descendant", Value.vnum 2)]] }]
    rfl (by decide)

/-- C2 (amended): for every closure-table move, the emitted delete is exactly
the condition built over the entities `findDescendants(entity)` returns — and,
because that fetch matches the entity's reflexive junction row, the entity
itself IS included as a descendant target whenever its reflexive pair is
present in the junction. -/
theorem c2_amended_delete_targets (repo : Repo) (db : Database)
    (aliasName closureTableAlias : String) (entity : Entity) (toEntity : Option Entity)
    (hT : repo.metadata.treeType = "closure-table")
    (hE : entity ∈ db.table)
    (hRefl : ∃ row ∈ db.junction,
      (∀ c ∈ repo.metadata.closureJunctionTable.descendantColumns,
        row.lookup c.propertyPath = some (getProp entity c.referencedColumn.propertyPath)) ∧
      (∀ c ∈ repo.metadata.closureJunctionTable.ancestorColumns,
        row.lookup c.propertyPath = some (c.referencedColumn.getEntityValue entity))) :
    (∃ ins : InsertQuery,
      moveEntityQueriesBuilder repo db aliasName closureTableAlias entity toEntity =
        Except.ok
          [Query.del
            { table := repo.metadata.closureJunctionTable.tableName
              whereCond := (buildDeleteCondition repo (execDescendantsSem repo db entity)).2
              parameters := (buildDeleteCondition repo (execDescendantsSem repo db entity)).1 },
           Query.ins ins]) ∧
    entity ∈ execDescendantsSem repo db entity := by
  refine ⟨⟨_, moveEQB_closure repo db aliasName closureTableAlias entity toEntity hT⟩, ?_⟩
  rw [execDescSem_closure repo db entity hT, List.mem_filter]
  refine ⟨hE, ?_⟩
  rw [List.any_eq_true]
  obtain ⟨row, hrow, hd, ha⟩ := hRefl
  exact ⟨row, hrow, by rw [decide_eq_true_eq]; exact ⟨hd, ha⟩⟩

theorem c2_amended_witness :
    (entB ∈ dbGh.table ∧
      (∃ row ∈ dbGh.junction,
        (∀ c ∈ repoGh.metadata.closureJunctionTable.descendantColumns,
          row.lookup c.propertyPath = some (getProp entB c.referencedColumn.propertyPath)) ∧
        (∀ c ∈ repoGh.metadata.closureJunctionTable.ancestorColumns,
          row.lookup c.propertyPath = some (c.referencedColumn.getEntityValue entB)))) ∧
    ((∃ ins : InsertQuery,
      moveEntityQueriesBuilder repoGh dbGh "treeEntity" "treeClosure" entB (some entC) =
        Except.ok
          [Query.del
            { table := repoGh.metadata.closureJunctionTable.tableName
              whereCond := (buildDeleteCondition repoGh (execDescendantsSem repoGh dbGh entB)).2
              parameters :=
                (buildDeleteCondition repoGh (execDescendantsSem repoGh dbGh entB)).1 },
           Query.ins ins]) ∧
    entB ∈ execDescendantsSem repoGh dbGh entB) :=
  ⟨⟨by decide, by decide⟩,
   c2_amended_delete_targets repoGh dbGh "treeEntity" "treeClosure" entB (some entC)
     rfl (by decide) (by decide)⟩

/-- C3 counterexample: the claim says `findDescendants(E)` excludes E itself;
on the gh-193 fixture the closure junction's reflexive pair (B,B) makes
`findDescendants(B)` return B. -/
theorem c3_counterexample :
    ¬ (∀ l : List Entity, findDescendants repoGh dbGh entB = Except.ok l → entB ∉ l) := by
  intro h
  exact h [entB] rfl (by decide)

/-- C3 (amended): for a closure-table entity whose junction is the transitive
closure of the child edges INCLUDING each reflexive pair, `findDescendants(E)`
returns exactly the entities reachable from E by zero or more child edges —
including E itself — and `findAncestors(E)` exactly those from which E is
reachable, including E itself. -/
theorem c3_amended_reachability (repo : Repo) (db : Database)
    (pkName parentName : String) (ac dc : JunctionColumn) (entity : Entity)
    (hT : repo.metadata.treeType = "closure-table")
    (hAC : repo.metadata.closureJunctionTable.ancestorColumns = [ac])
    (hDC : repo.metadata.closureJunctionTable.descendantColumns = [dc])
    (hacr : ac.referencedColumn = { propertyName := pkName, propertyPath := pkName })
    (hdcr : dc.referencedColumn = { propertyName := pkName, propertyPath := pkName })
    (hInj : ∀ p ∈ db.table, ∀ q ∈ db.table, getProp p pkName = getProp q pkName → p = q)
    (hE : entity ∈ db.table)
    (hClosure : junctionIsClosure db ac.propertyPath dc.propertyPath pkName parentName) :
    (∃ l, findDescendants repo db entity = Except.ok l ∧
      ∀ x, x ∈ l ↔ x ∈ db.table ∧
        Relation.ReflTransGen (childStep pkName parentName) entity x) ∧
    (∃ l, findAncestors repo db entity = Except.ok l ∧
      ∀ x, x ∈ l ↔ x ∈ db.table ∧
        Relation.ReflTransGen (childStep pkName parentName) x entity) := by
  constructor
  · refine ⟨_, findDescendants_eq_sem repo db entity (Or.inl hT), ?_⟩
    intro x
    rw [execDescSem_closure repo db entity hT, List.mem_filter]
    constructor
    · rintro ⟨hx, hpred⟩
      refine ⟨hx, ?_⟩
      rw [List.any_eq_true] at hpred
      obtain ⟨row, hrow, hcond⟩ := hpred
      rw [decide_eq_true_eq] at hcond
      obtain ⟨hd, ha⟩ := hcond
      rw [hDC, List.forall_mem_singleton, hdcr] at hd
      rw [hAC, List.forall_mem_singleton, hacr] at ha
      obtain ⟨p, q, hp, hq, hpa, hqd, hRTG⟩ :=
        (hClosure (getProp entity pkName) (getProp x pkName)).mp ⟨row, hrow, ha, hd⟩
      have hpe : p = entity := hInj p hp entity hE hpa
      have hqx : q = x := hInj q hq x hx hqd
      rw [hpe, hqx] at hRTG
      exact hRTG
    · rintro ⟨hx, hRTG⟩
      refine ⟨hx, ?_⟩
      rw [List.any_eq_true]
      obtain ⟨row, hrow, ha, hd⟩ :=
        (hClosure (getProp entity pkName) (getProp x pkName)).mpr
          ⟨entity, x, hE, hx, rfl, rfl, hRTG⟩
      refine ⟨row, hrow, ?_⟩
      rw [decide_eq_true_eq]
      constructor
      · rw [hDC, List.forall_mem_singleton, hdcr]
        exact hd
      · rw [hAC, List.forall_mem_singleton, hacr]
        exact ha
  · refine ⟨_, findAncestors_eq_sem repo db entity (Or.inl hT), ?_⟩
    intro x
    rw [execAncSem_closure repo db entity hT, List.mem_filter]
    constructor
    · rintro ⟨hx, hpred⟩
      refine ⟨hx, ?_⟩
      rw [List.any_eq_true] at hpred
      obtain ⟨row, hrow, hcond⟩ := hpred
      rw [decide_eq_true_eq] at hcond
      obtain ⟨ha, hd⟩ := hcond
      rw [hAC, List.forall_mem_singleton, hacr] at ha
      rw [hDC, List.forall_mem_singleton, hdcr] at hd
      obtain ⟨p, q, hp, hq, hpa, hqd, hRTG⟩ :=
        (hClosure (getProp x pkName) (getProp entity pkName)).mp ⟨row, hrow, ha, hd⟩
      have hpx : p = x := hInj p hp x hx hpa
      have hqe : q = entity := hInj q hq entity hE hqd
      rw [hpx, hqe] at hRTG
      exact hRTG
    · rintro ⟨hx, hRTG⟩
      refine ⟨hx, ?_⟩
      rw [List.any_eq_true]
      obtain ⟨row, hrow, ha, hd⟩ :=
        (hClosure (getProp x pkName) (getProp entity pkName)).mpr
          ⟨x, entity, hx, hE, rfl, rfl, hRTG⟩
      refine ⟨row, hrow, ?_⟩
      rw [decide_eq_true_eq]
      constructor
      · rw [hAC, List.forall_mem_singleton, hacr]
        exact ha
      · rw [hDC, List.forall_mem_singleton, hdcr]
        exact hd

theorem c3_amended_witness :
    junctionIsClosure dbOne "id_ancestor" "id_descendant" "id" "parentCategory" ∧
    ((∃ l, findDescendants repoGh dbOne entA = Except.ok l ∧
      ∀ x, x ∈ l ↔ x ∈ dbOne.table ∧
        Relation.ReflTransGen (childStep "id" "parentCategory") entA x) ∧
     (∃ l, findAncestors repoGh dbOne entA = Except.ok l ∧
      ∀ x, x ∈ l ↔ x ∈ dbOne.table ∧
        Relation.ReflTransGen (childStep "id" "parentCategory") x entA)) := by
  have hclo : junctionIsClosure dbOne "id_ancestor" "id_descendant" "id" "parentCategory" := by
    intro a d
    constructor
    · rintro ⟨row, hrow, ha, hd⟩
      have hr : row = jrow 1 1 := by simpa [dbOne] using hrow
      subst hr
      have ha' : a = Value.vnum 1 := Option.some.inj (ha.symm.trans (by rfl))
      have hd' : d = Value.vnum 1 := Option.some.inj (hd.symm.trans (by rfl))
      subst ha'
      subst hd'
      exact ⟨entA, entA, by decide, by decide, rfl, rfl, Relation.ReflTransGen.refl⟩
    · rintro ⟨p, q, hp, hq, hpa, hqd, _⟩
      have hpe : p = entA := by simpa [dbOne] using hp
      have hqe : q = entA := by simpa [dbOne] using hq
      subst hpe
      subst hqe
      refine ⟨jrow 1 1, by decide, ?_, ?_⟩
      · rw [← hpa]
        rfl
      · rw [← hqd]
        rfl
  exact ⟨hclo, c3_amended_reachability repoGh dbOne "id" "parentCategory"
    { propertyPath := "id_ancestor", referencedColumn := refId }
    { propertyPath := "id_descendant", referencedColumn := refId } entA
    rfl rfl rfl rfl rfl (by decide) (by decide) hclo⟩

/-- The materialized-path branch of the descendants execution, spelled out. -/
theorem execDescSem_mpath (repo : Repo) (db : Database) (entity : Entity)
    (hT : repo.metadata.treeType = "materialized-path") :
    execDescendantsSem repo db entity =
      (match db.table.find? (fun r =>
          decide (∀ pc ∈ repo.metadata.primaryColumns,
            getProp r pc.propertyName = pc.getEntityValue entity)) with
      | none => []
      | some r => db.table.filter (fun x =>
          likeStartsWith (getProp x repo.metadata.materializedPathColumn.propertyPath)
            (getProp r repo.metadata.materializedPathColumn.propertyPath))) := by
  have h1 : repo.metadata.treeType ≠ "closure-table" := by rw [hT]; decide
  have h2 : repo.metadata.treeType ≠ "nested-set" := by rw [hT]; decide
  simp only [execDescendantsSem, if_neg h1, if_neg h2, if_pos hT]

/-- The materialized-path branch of the ancestors execution, spelled out. -/
theorem execAncSem_mpath (repo : Repo) (db : Database) (entity : Entity)
    (hT : repo.metadata.treeType = "materialized-path") :
    execAncestorsSem repo db entity =
      (match db.table.find? (fun r =>
          decide (∀ pc ∈ repo.metadata.primaryColumns,
            getProp r pc.propertyName = pc.getEntityValue entity)) with
      | none => []
      | some r => db.table.filter (fun x =>
          likeStartsWith (getProp r repo.metadata.materializedPathColumn.propertyPath)
            (getProp x repo.metadata.materializedPathColumn.propertyPath))) := by
  have h1 : repo.metadata.treeType ≠ "closure-table" := by rw [hT]; decide
  have h2 : repo.metadata.treeType ≠ "nested-set" := by rw [hT]; decide
  simp only [execAncestorsSem, if_neg h1, if_neg h2, if_pos hT]

/-- C7: for materialized-path, the descendants query filters candidate rows
whose path starts with the given entity's path (the row `r0` the sub-query
selects by primary key), rendering the concatenation with the `||` operator on
a SQLite-style driver and with CONCAT otherwise; the ancestors query inverts
the direction, requiring the entity's path to start with the candidate's. -/
theorem c7_mpath_queries (repo : Repo) (db : Database) (entity : Entity) (r0 : Entity)
    (hT : repo.metadata.treeType = "materialized-path")
    (hFind : db.table.find? (fun r =>
        decide (∀ pc ∈ repo.metadata.primaryColumns,
          getProp r pc.propertyName = pc.getEntityValue entity)) = some r0) :
    (∀ aliasName closureTableAlias : String,
      ∃ q, createDescendantsQueryBuilder repo aliasName closureTableAlias entity =
          Except.ok q ∧
        q.whereCond =
          (if repo.driver.isSqlite then
            aliasName ++ "." ++ repo.metadata.materializedPathColumn.propertyPath ++
              " LIKE " ++ subQueryGetQuery repo entity ++ " || '%'"
          else
            aliasName ++ "." ++ repo.metadata.materializedPathColumn.propertyPath ++
              " LIKE CONCAT(" ++ subQueryGetQuery repo entity ++ ", '%')")) ∧
    (∀ aliasName closureTableAlias : String,
      ∃ q, createAncestorsQueryBuilder repo aliasName closureTableAlias entity =
          Except.ok q ∧
        q.whereCond =
          (if repo.driver.isSqlite then
            subQueryGetQuery repo entity ++ " LIKE " ++ aliasName ++ "." ++
              repo.metadata.materializedPathColumn.propertyPath ++ " || '%'"
          else
            subQueryGetQuery repo entity ++ " LIKE CONCAT(" ++ aliasName ++ "." ++
              repo.metadata.materializedPathColumn.propertyPath ++ ", '%')")) ∧
    (∃ l, findDescendants repo db entity = Except.ok l ∧
      ∀ x, x ∈ l ↔ x ∈ db.table ∧
        likeStartsWith (getProp x repo.metadata.materializedPathColumn.propertyPath)
          (getProp r0 repo.metadata.materializedPathColumn.propertyPath) = true) ∧
    (∃ l, findAncestors repo db entity = Except.ok l ∧
      ∀ x, x ∈ l ↔ x ∈ db.table ∧
        likeStartsWith (getProp r0 repo.metadata.materializedPathColumn.propertyPath)
          (getProp x repo.metadata.materializedPathColumn.propertyPath) = true) := by
  have h1 : repo.metadata.treeType ≠ "closure-table" := by rw [hT]; decide
  have h2 : repo.metadata.treeType ≠ "nested-set" := by rw [hT]; decide
  refine ⟨?_, ?_, ?_, ?_⟩
  · intro aliasName closureTableAlias
    refine ⟨{ aliasName := aliasName, join := none,
              whereCond :=
                if repo.driver.isSqlite then
                  aliasName ++ "." ++ repo.metadata.materializedPathColumn.propertyPath ++
                    " LIKE " ++ subQueryGetQuery repo entity ++ " || '%'"
                else
                  aliasName ++ "." ++ repo.metadata.materializedPathColumn.propertyPath ++
                    " LIKE CONCAT(" ++ subQueryGetQuery repo entity ++ ", '%')",
              parameters := getEntityIdMap repo entity }, ?_, rfl⟩
    simp only [createDescendantsQueryBuilder, if_neg h1, if_neg h2, if_pos hT]
  · intro aliasName closureTableAlias
    refine ⟨{ aliasName := aliasName, join := none,
              whereCond :=
                if repo.driver.isSqlite then
                  subQueryGetQuery repo entity ++ " LIKE " ++ aliasName ++ "." ++
                    repo.metadata.materializedPathColumn.propertyPath ++ " || '%'"
                else
                  subQueryGetQuery repo entity ++ " LIKE CONCAT(" ++ aliasName ++ "." ++
                    repo.metadata.materializedPathColumn.propertyPath ++ ", '%')",
              parameters := getEntityIdMap repo entity }, ?_, rfl⟩
    simp only [createAncestorsQueryBuilder, if_neg h1, if_neg h2, if_pos hT]
  · refine ⟨_, findDescendants_eq_sem repo db entity (Or.inr (Or.inr hT)), ?_⟩
    intro x
    rw [execDescSem_mpath repo db entity hT, hFind]
    simp only [List.mem_filter]
  · refine ⟨_, findAncestors_eq_sem repo db entity (Or.inr (Or.inr hT)), ?_⟩
    intro x
    rw [execAncSem_mpath repo db entity hT, hFind]
    simp only [List.mem_filter]

theorem c7_witness :
    (repoMp.metadata.treeType = "materialized-path" ∧
      dbMp.table.find? (fun r =>
        decide (∀ pc ∈ repoMp.metadata.primaryColumns,
          getProp r pc.propertyName = pc.getEntityValue rowMp1)) = some rowMp1) ∧
    (∃ q, createDescendantsQueryBuilder repoMp "treeEntity" "treeClosure" rowMp1 =
        Except.ok q ∧
      q.whereCond =
        (if repoMp.driver.isSqlite then
          "treeEntity" ++ "." ++ repoMp.metadata.materializedPathColumn.propertyPath ++
            " LIKE " ++ subQueryGetQuery repoMp rowMp1 ++ " || '%'"
        else
          "treeEntity" ++ "." ++ repoMp.metadata.materializedPathColumn.propertyPath ++
            " LIKE CONCAT(" ++ subQueryGetQuery repoMp rowMp1 ++ ", '%')")) ∧
    (∃ l, findDescendants repoMp dbMp rowMp1 = Except.ok l ∧
      ∀ x, x ∈ l ↔ x ∈ dbMp.table ∧
        likeStartsWith (getProp x repoMp.metadata.materializedPathColumn.propertyPath)
          (getProp rowMp1 repoMp.metadata.materializedPathColumn.propertyPath) = true) :=
  ⟨⟨rfl, rfl⟩,
   (c7_mpath_queries repoMp dbMp rowMp1 rowMp1 rfl rfl).1 "treeEntity" "treeClosure",
   (c7_mpath_queries repoMp dbMp rowMp1 rowMp1 rfl rfl).2.2.1⟩

theorem getPrimaryValue_eq_getProp (repo : Repo) (e : Entity)
    (hPC : repo.metadata.primaryColumns ≠ []) :
    getPrimaryValue repo e = getProp e (primaryPropertyName repo) := by
  cases h : repo.metadata.primaryColumns with
  | nil => exact absurd h hPC
  | cons pc rest =>
    simp [getPrimaryValue, primaryPropertyName, h, PrimaryColumn.getEntityValue]

/-- A successful `parentStep` follows one realised relation-map edge: from the
current node's primary value to the located parent's primary value. -/
theorem parentStep_edge (repo : Repo) (entities : List Entity)
    (relationMaps : List RelationMap) (e p : Entity)
    (hPC : repo.metadata.primaryColumns ≠ [])
    (hps : parentStep repo entities relationMaps e = some p) :
    relEdge (primaryPropertyName repo) entities relationMaps
      (getProp e (primaryPropertyName repo)) (getProp p (primaryPropertyName repo)) := by
  simp only [parentStep] at hps
  have hpmem : p ∈ entities := List.mem_of_find?_eq_some hps
  have hpred := List.find?_some hps
  cases hrm : relationMaps.find? (fun rm => decide (rm.id = getPrimaryValue repo e)) with
  | none =>
    rw [hrm] at hpred
    simp at hpred
  | some prm =>
    rw [hrm] at hpred
    simp only [decide_eq_true_eq] at hpred
    have hrmem : prm ∈ relationMaps := List.mem_of_find?_eq_some hrm
    have hrpred := List.find?_some hrm
    rw [decide_eq_true_eq] at hrpred
    refine ⟨⟨prm, hrmem, ?_, hpred.symm⟩, ⟨p, hpmem, rfl⟩⟩
    rw [hrpred, getPrimaryValue_eq_getProp repo e hPC]

/-- One unfolding step of the fueled parent-chain recursion. -/
theorem buildParent_succ (repo : Repo) (entities : List Entity)
    (relationMaps : List RelationMap) (fuel : Nat) (e : Entity) :
    buildParentEntityTree repo entities relationMaps (fuel + 1) e =
      (match parentStep repo entities relationMaps e with
      | none => some []
      | some parentEntity =>
        (buildParentEntityTree repo entities relationMaps fuel parentEntity).map
          (fun chain => parentEntity :: chain)) := rfl

/-- Fuel bound for the parent chain: if no id is transitively reachable from
itself along realised relation-map edges, and every id reachable from the
start lies in `allowed`, then `allowed.length + 1` steps of fuel suffice. -/
theorem buildParent_fuel (repo : Repo) (entities : List Entity)
    (relationMaps : List RelationMap)
    (hPC : repo.metadata.primaryColumns ≠ [])
    (hacyc : ∀ a, ¬ Relation.TransGen
      (relEdge (primaryPropertyName repo) entities relationMaps) a a) :
    ∀ (n : Nat) (allowed : List Value), allowed.length ≤ n →
      ∀ e : Entity,
        (∀ b, Relation.TransGen (relEdge (primaryPropertyName repo) entities relationMaps)
          (getProp e (primaryPropertyName repo)) b → b ∈ allowed) →
        (buildParentEntityTree repo entities relationMaps (n + 1) e).isSome := by
  intro n
  induction n with
  | zero =>
    intro allowed hlen e hA
    cases hps : parentStep repo entities relationMaps e with
    | none =>
      rw [buildParent_succ, hps]
      rfl
    | some p =>
      exfalso
      have hedge := parentStep_edge repo entities relationMaps e p hPC hps
      have hmem := hA _ (Relation.TransGen.single hedge)
      rw [List.length_eq_zero.mp (Nat.le_zero.mp hlen)] at hmem
      exact List.not_mem_nil _ hmem
  | succ m ih =>
    intro allowed hlen e hA
    cases hps : parentStep repo entities relationMaps e with
    | none =>
      rw [buildParent_succ, hps]
      rfl
    | some p =>
      have hedge := parentStep_edge repo entities relationMaps e p hPC hps
      have hpmem : getProp p (primaryPropertyName repo) ∈ allowed :=
        hA _ (Relation.TransGen.single hedge)
      have hA' : ∀ b, Relation.TransGen
          (relEdge (primaryPropertyName repo) entities relationMaps)
          (getProp p (primaryPropertyName repo)) b →
          b ∈ allowed.erase (getProp p (primaryPropertyName repo)) := by
        intro b hb
        have hbmem := hA b (Relation.TransGen.head hedge hb)
        have hbne : b ≠ getProp p (primaryPropertyName repo) := by
          intro hEq
          rw [hEq] at hb
          exact hacyc _ hb
        exact (List.mem_erase_of_ne hbne).mpr hbmem
      have hrec := ih (allowed.erase (getProp p (primaryPropertyName repo)))
        (by rw [List.length_erase_of_mem hpmem]; omega) p hA'
      obtain ⟨v, hv⟩ := Option.isSome_iff_exists.mp hrec
      rw [buildParent_succ, hps]
      show ((buildParentEntityTree repo entities relationMaps (m + 1) p).map
        (fun chain => p :: chain)).isSome = true
      rw [hv]
      rfl

/-- C8: `buildParentEntityTree` terminates for every acyclic relation map —
with fuel `entities.length + 1` the recursion from any node reaches, without
exhausting the fuel, a node whose id has no relation-map entry or whose
parentId matches no fetched entity. -/
theorem c8_buildParent_terminates (repo : Repo) (entities : List Entity)
    (relationMaps : List RelationMap) (entity : Entity)
    (hPC : repo.metadata.primaryColumns ≠ [])
    (hacyc : ∀ a, ¬ Relation.TransGen (rmEdge relationMaps) a a) :
    (buildParentEntityTree repo entities relationMaps
      (entities.length + 1) entity).isSome := by
  have hacyc' : ∀ a, ¬ Relation.TransGen
      (relEdge (primaryPropertyName repo) entities relationMaps) a a := by
    intro a h
    exact hacyc a (h.mono (fun x y hxy => hxy.1))
  apply buildParent_fuel repo entities relationMaps hPC hacyc' entities.length
    ((entities.map (fun x => getProp x (primaryPropertyName repo))).dedup)
  · calc ((entities.map (fun x => getProp x (primaryPropertyName repo))).dedup).length
        ≤ (entities.map (fun x => getProp x (primaryPropertyName repo))).length :=
          (List.dedup_sublist _).length_le
      _ = entities.length := List.length_map _ _
  · intro b hb
    have hex : ∃ x ∈ entities, getProp x (primaryPropertyName repo) = b := by
      induction hb with
      | single h => exact h.2
      | tail _ h _ => exact h.2
    rw [List.mem_dedup]
    obtain ⟨x, hx, hxb⟩ := hex
    exact List.mem_map.mpr ⟨x, hx, hxb⟩

theorem c8_witness :
    (buildParentEntityTree repoGh ents8 maps8
      (ents8.length + 1) [("id", Value.vnum 1)]).isSome := by
  have hrm : ∀ {rm : RelationMap}, rm ∈ maps8 →
      rm = { id := Value.vnum 1, parentId := Value.vnum 2 } := by
    intro rm h
    simpa [maps8] using h
  have hlast : ∀ a b, Relation.TransGen (rmEdge maps8) a b → b = Value.vnum 2 := by
    intro a b h
    induction h with
    | single h =>
      obtain ⟨rm, hmem, _, hpar⟩ := h
      rw [hrm hmem] at hpar
      exact hpar.symm
    | tail _ h _ =>
      obtain ⟨rm, hmem, _, hpar⟩ := h
      rw [hrm hmem] at hpar
      exact hpar.symm
  have hacyc : ∀ a, ¬ Relation.TransGen (rmEdge maps8) a a := by
    intro a h
    have ha2 : a = Value.vnum 2 := hlast a a h
    obtain ⟨c, hedge, _⟩ := Relation.TransGen.head'_iff.mp h
    obtain ⟨rm, hmem, hid, _⟩ := hedge
    rw [hrm hmem] at hid
    rw [ha2] at hid
    exact absurd hid (by decide)
  exact c8_buildParent_terminates repoGh ents8 maps8 [("id", Value.vnum 1)]
    (by decide) hacyc

/-- One unfolding step of the fueled children-tree recursion. -/
theorem buildChildren_succ (repo : Repo) (entities : List Entity)
    (relationMaps : List RelationMap) (fuel : Nat) (entity : Entity) :
    buildChildrenEntityTree repo entities relationMaps (fuel + 1) entity =
      ((assignedChildren repo entity entities relationMaps).mapM
        (fun c => buildChildrenEntityTree repo entities relationMaps fuel c)).map
        (fun subtrees => TreeNode.node entity subtrees) := rfl

/-- C9 counterexample: the claim says that for every entity type whose
primary-key property is not named `id` the assigned children collection is
empty; with primary key `pk` and a fetched entity that also declares a plain
column literally named `id` whose value coincides with a relation-map child
id, the children collection is non-empty. -/
theorem c9_counterexample :
    primaryPropertyName repoPk ≠ "id" ∧
    assignedChildren repoPk entE9 [entX9] maps9 = [entX9] :=
  ⟨by decide, by decide⟩

/-- C9 (amended): `buildChildrenEntityTree` filters the fetched entities by
their LITERAL `id` property against the relation-map child ids, not by the
declared primary-key property; hence when no fetched entity carries a property
named `id` (the case for entity types whose primary key is named otherwise and
which declare no other `id` column) and no relation-map id is undefined, the
assigned children collection is empty even when descendants were fetched, and
the assembled tree is a childless node. -/
theorem c9_amended_children (repo : Repo) (entity : Entity) (entities : List Entity)
    (relationMaps : List RelationMap) (fuel : Nat)
    (hNoId : ∀ e ∈ entities, getProp e "id" = Value.vundef)
    (hDef : ∀ rm ∈ relationMaps, rm.id ≠ Value.vundef) :
    assignedChildren repo entity entities relationMaps = [] ∧
    buildChildrenEntityTree repo entities relationMaps (fuel + 1) entity =
      some (TreeNode.node entity []) := by
  have hac : assignedChildren repo entity entities relationMaps = [] := by
    simp only [assignedChildren]
    rw [List.filter_eq_nil_iff]
    intro e he hcontains
    have hmem : getProp e "id" ∈
        (relationMaps.filter (fun rm =>
          decide (rm.parentId = getPrimaryValue repo entity))).map
          (fun rm => rm.id) :=
      List.elem_iff.mp hcontains
    obtain ⟨rm, hrmf, hrid⟩ := List.mem_map.mp hmem
    have hrmem : rm ∈ relationMaps := (List.mem_filter.mp hrmf).1
    rw [hNoId e he] at hrid
    exact hDef rm hrmem hrid
  refine ⟨hac, ?_⟩
  rw [buildChildren_succ, hac]
  rfl

theorem c9_amended_witness :
    assignedChildren repoPk entE9 [entY9] maps9 = [] ∧
    buildChildrenEntityTree repoPk [entY9] maps9 1 entE9 =
      some (TreeNode.node entE9 []) :=
  c9_amended_children repoPk entE9 [entY9] maps9 0 (by decide) (by decide)

end TreeRepository
